import Mathlib

set_option exponentiation.threshold 1100

/-!
Verification of the Tiny ERP balance-sheet transformer (`optimizer.py`).

The program reads a wide-format CSV with identifying columns
`Tipo`, `Grupo`, `Categoria` and month columns named `MMM/YY`, validates the
header, reshapes each (row, date column) pair into one long-format record,
sorts the records by (`Data`, `Tipo`, `Grupo`, `Categoria`) and writes them
out.  The embedding below models the table already read into memory (file
I/O is peripheral), cells as raw CSV strings or missing values, Python
floats as rationals extended with infinities and `NaN`, and Python
exceptions as an `Except` error type.
-/

namespace TinyERP

/-- A raw cell of the input table: the string read from the CSV, or a
missing value (pandas `NaN`, a float). -/
inductive Cell where
  | str (s : String)
  | nan
deriving DecidableEq, Repr

/-- The result of Python float conversion: a finite value (modelled as an
exact rational), an infinity, or `NaN`. -/
inductive PyFloat where
  | fin (q : ℚ)
  | inf
  | ninf
  | nan
deriving DecidableEq, Repr

/-- Python exceptions that the transformer can raise. -/
inductive PyError where
  | valueError (msg : String)
  | typeError (msg : String)
  | keyError (msg : String)
  | attributeError (msg : String)
deriving DecidableEq, Repr

instance exceptDecEq {ε α : Type} [DecidableEq ε] [DecidableEq α] :
    DecidableEq (Except ε α)
  | .error e, .error f =>
    if h : e = f then .isTrue (by rw [h]) else .isFalse (by simp [h])
  | .error _, .ok _ => .isFalse (by simp)
  | .ok _, .error _ => .isFalse (by simp)
  | .ok a, .ok b =>
    if h : a = b then .isTrue (by rw [h]) else .isFalse (by simp [h])

/-- The input table: a header of column names and the data rows, each row a
list of cells positionally aligned with the header. -/
structure Table where
  cols : List String
  rows : List (List Cell)
deriving DecidableEq, Repr

/-- One output record of the reshape (a row of the transformed dataframe). -/
structure Obs where
  Data : String
  Ano : Int
  Mes : Nat
  Mes_Nome : String
  Tipo : Cell
  Grupo : Cell
  Categoria : String
  Valor : PyFloat
deriving DecidableEq, Repr

/-! ### Character-level string helpers

The embedding works on `List Char` (`String.data`) so that every operation
is structurally recursive. -/

/-- Numeric value of a decimal digit character. -/
def digitVal (c : Char) : Nat := c.toNat - 48

/-- The natural number denoted by a digit string (most significant first). -/
def natOfDigits (l : List Char) : Nat := l.foldl (fun a c => 10 * a + digitVal c) 0

/-- A nonempty all-digit character list. -/
def isDigits (l : List Char) : Bool := !l.isEmpty && l.all Char.isDigit

/-- Strip leading and trailing whitespace (Python `str.strip()`). -/
def trimChars (l : List Char) : List Char :=
  ((l.dropWhile Char.isWhitespace).reverse.dropWhile Char.isWhitespace).reverse

/-- Split on every occurrence of a separator character
(Python `str.split(sep)` for a one-character separator). -/
def splitChars (sep : Char) : List Char → List (List Char)
  | [] => [[]]
  | c :: cs =>
    match splitChars sep cs with
    | [] => [[]]
    | g :: gs => if c = sep then [] :: g :: gs else (c :: g) :: gs

/-- Decimal digits of a natural number, via explicit fuel (structural). -/
def natDigitsAux : Nat → Nat → List Char
  | 0, _ => []
  | fuel + 1, n => if n = 0 then [] else natDigitsAux fuel (n / 10) ++ [Char.ofNat (48 + n % 10)]

/-- Decimal rendering of a natural number. -/
def natToChars (n : Nat) : List Char := if n = 0 then ['0'] else natDigitsAux (n + 1) n

/-- Decimal rendering of an integer (Python `str(int)`). -/
def intToChars (i : Int) : List Char :=
  if i < 0 then '-' :: natToChars (-i).toNat else natToChars i.toNat

/-- The single-quote character, used by Python `repr` of strings. -/
def sq : Char := '\x27'

/-- Python `str` of a list of strings, as an f-string interpolates it:
`['Tipo', 'Grupo']`. -/
def pyListRepr (l : List String) : String :=
  "[" ++ String.mk (List.intercalate [',', ' '] (l.map (fun s => sq :: (s.data ++ [sq])))) ++ "]"

/-! ### Python numeric parsing

`pd.to_numeric(s, errors="coerce")` on a string succeeds exactly when the
string is a Python float literal (decimal mantissa with optional fraction
and exponent, or an `inf`/`nan` word, with optional sign and surrounding
whitespace); on failure it yields `NaN`.  Decimal values whose magnitude
reaches the float64 overflow boundary convert to an infinity, as
`float("1e400")` does. -/

/-- Split a character list at the first character satisfying `p`; the second
component is `none` when no character matches. -/
def splitFirst (p : Char → Bool) : List Char → List Char × Option (List Char)
  | [] => ([], none)
  | c :: cs =>
    if p c then ([], some cs)
    else
      let r := splitFirst p cs
      (c :: r.1, r.2)

/-- Value of an unsigned decimal mantissa `digits[.digits]`; `none` when the
shape is wrong (no digits at all, a second period, a non-digit). -/
def mantissaVal (l : List Char) : Option ℚ :=
  let s := splitFirst (· = '.') l
  match s.2 with
  | none => if isDigits s.1 then some (natOfDigits s.1 : ℚ) else none
  | some fp =>
    if (s.1.all Char.isDigit && fp.all Char.isDigit) && !(s.1.isEmpty && fp.isEmpty) then
      some ((natOfDigits s.1 : ℚ) + (natOfDigits fp : ℚ) / (10 : ℚ) ^ fp.length)
    else none

/-- Value of an exponent part: optional sign and a nonempty digit string. -/
def expVal (l : List Char) : Option Int :=
  match l with
  | '+' :: d => if isDigits d then some (natOfDigits d) else none
  | '-' :: d => if isDigits d then some (-(natOfDigits d : Int)) else none
  | d => if isDigits d then some (natOfDigits d) else none

/-- Multiply by a (possibly negative) power of ten. -/
def scale10 (q : ℚ) (e : Int) : ℚ :=
  if 0 ≤ e then q * (10 : ℚ) ^ e.toNat else q / (10 : ℚ) ^ (-e).toNat

/-- Negation on Python floats. -/
def PyFloat.neg : PyFloat → PyFloat
  | .fin q => .fin (-q)
  | .inf => .ninf
  | .ninf => .inf
  | .nan => .nan

/-- The float64 overflow boundary `2 ^ 1024 - 2 ^ 970`: the round-to-nearest
midpoint just above the largest double.  A decimal magnitude at or beyond it
converts to an infinity in Python `float` and `pd.to_numeric` (ties round to
the even `2 ^ 1024`, which overflows); anything below rounds to a finite
double. -/
def float64OverflowBound : ℕ := 2 ^ 1024 - 2 ^ 970

/-- Conversion of a nonnegative parsed decimal to a double: magnitudes at or
beyond the overflow boundary saturate to the float infinity. -/
def saturateFloat (q : ℚ) : PyFloat :=
  if (float64OverflowBound : ℚ) ≤ q then .inf else .fin q

/-- Unsigned part of Python float parsing: an `inf`/`infinity`/`nan` word
(case-insensitive) or a decimal mantissa with optional exponent, the
numeric forms saturating to infinity at the float64 overflow boundary. -/
def pyFloatUnsigned (l : List Char) : Option PyFloat :=
  let low := l.map Char.toLower
  if low = "inf".data ∨ low = "infinity".data then some .inf
  else if low = "nan".data then some .nan
  else
    let s := splitFirst (fun c => c = 'e' ∨ c = 'E') l
    match s.2 with
    | none => (mantissaVal s.1).map saturateFloat
    | some ex =>
      match mantissaVal s.1, expVal ex with
      | some m, some e => some (saturateFloat (scale10 m e))
      | _, _ => none

/-- Python `float(s)` on a character list: optional surrounding whitespace
and sign; `none` models the `ValueError` of an unparseable string. -/
def pyFloatOfChars (l : List Char) : Option PyFloat :=
  match trimChars l with
  | '+' :: rest => pyFloatUnsigned rest
  | '-' :: rest => (pyFloatUnsigned rest).map PyFloat.neg
  | rest => pyFloatUnsigned rest

/-- `pd.to_numeric(s, errors="coerce")` on one string: the parsed number, or
`NaN` when the string is not numeric. -/
def to_numeric_coerce (l : List Char) : PyFloat :=
  match pyFloatOfChars l with
  | some v => v
  | none => .nan

/-- Python `int(s)`: optional surrounding whitespace, optional sign, then a
nonempty digit string; `none` models the `ValueError`. -/
def pyInt (l : List Char) : Option Int :=
  match trimChars l with
  | '+' :: d => if isDigits d then some (natOfDigits d : Int) else none
  | '-' :: d => if isDigits d then some (-(natOfDigits d : Int)) else none
  | d => if isDigits d then some (natOfDigits d : Int) else none

/-! ### Rounding -/

/-- Round a rational to the nearest integer, ties to even
(the rounding of Python `round`). -/
def roundHalfEven (q : ℚ) : Int :=
  let n := ⌊q⌋
  if q - n < 1 / 2 then n
  else if 1 / 2 < q - n then n + 1
  else if n % 2 = 0 then n else n + 1

/-- `round(x, 2)` on a finite value. -/
def round2 (q : ℚ) : ℚ := (roundHalfEven (q * 100) : ℚ) / 100

/-- `round(x, 2)` on a Python float: infinities are fixed points, and the
`NaN` case never reaches `round` in the program. -/
def pyRound2 : PyFloat → PyFloat
  | .fin q => .fin (round2 q)
  | .inf => .inf
  | .ninf => .ninf
  | .nan => .nan

/-! ### The transformer (translated from `optimizer.py`) -/

/-- The entries of `self.month_map`: Brazilian Portuguese month
abbreviations to month numbers. -/
def month_map_entries : List (String × Nat) :=
  [("Jan", 1), ("Fev", 2), ("Mar", 3), ("Abr", 4), ("Mai", 5), ("Jun", 6),
   ("Jul", 7), ("Ago", 8), ("Set", 9), ("Out", 10), ("Nov", 11), ("Dez", 12)]

/-- `self.month_map.get(s)`: dictionary lookup, `None` on a miss. -/
def month_map (s : String) : Option Nat :=
  (month_map_entries.find? (fun p => p.1 == s)).map (fun p => p.2)

/-- The entries of `self.month_names`: month numbers to full names. -/
def month_names_entries : List (Nat × String) :=
  [(1, "Janeiro"), (2, "Fevereiro"), (3, "Março"), (4, "Abril"),
   (5, "Maio"), (6, "Junho"), (7, "Julho"), (8, "Agosto"),
   (9, "Setembro"), (10, "Outubro"), (11, "Novembro"), (12, "Dezembro")]

/-- `self.month_names[m]`; `dict[k]` raises `KeyError` on a miss, modelled
by `none`. -/
def month_names (m : Nat) : Option String :=
  (month_names_entries.find? (fun p => p.1 == m)).map (fun p => p.2)

/-- The required identifying columns of `_validate_input_data`. -/
def required_columns : List String := ["Tipo", "Grupo", "Categoria"]

/-- Date columns: every column whose name contains a slash, except `Total`
(lines 85 and 126 of the source, the same comprehension twice). -/
def date_column_names (cols : List String) : List String :=
  cols.filter (fun c => c.data.contains '/' && c != "Total")

/-- `_validate_input_data`, a pure check of the header: all three required
columns present (else a `ValueError` listing every missing name), and at
least one date column (else a `ValueError`). -/
def validate_input_data (cols : List String) : Except PyError Bool :=
  let missing := required_columns.filter (fun c => !(cols.contains c))
  if missing.isEmpty then
    if (date_column_names cols).isEmpty then
      .error (.valueError ("No date columns found in the format " ++
        String.mk [sq] ++ "MMM/YY" ++ String.mk [sq]))
    else .ok true
  else .error (.valueError ("Missing required columns: " ++ pyListRepr missing))

/-- `_parse_date_column`: split the trimmed name on the slash (unpacking
raises `ValueError` unless there are exactly two parts), look the month
token up in `month_map` (`None` on a miss, no exception), and build the year
as `2000 + int(year_str)` (`int` raises on a non-integer token). -/
def parse_date_column (col_name : String) : Except PyError (Option Nat × Int) :=
  match splitChars '/' (trimChars col_name.data) with
  | [month_str, year_str] =>
    match pyInt year_str with
    | some y => .ok (month_map (String.mk (trimChars month_str)), 2000 + y)
    | none => .error (.valueError ("invalid literal for int with base 10: " ++
        String.mk year_str))
  | parts =>
    if parts.length < 2 then
      .error (.valueError "not enough values to unpack, expected 2")
    else .error (.valueError "too many values to unpack, expected 2")

/-- Zero-padded two-digit rendering (Python format spec `02d`). -/
def pad2Chars (n : Nat) : List Char :=
  if n < 10 then '0' :: natToChars n else natToChars n

/-- The date string `f"{year}-{month:02d}-01"`. -/
def formatDate (year : Int) (month : Nat) : String :=
  String.mk (intToChars year ++ '-' :: pad2Chars month ++ ['-', '0', '1'])

/-- `row[col]`: label lookup of a cell in a row (first matching column). -/
def getCell (cols : List String) (row : List Cell) (col : String) : Cell :=
  match cols.findIdx? (· == col) with
  | some i => row.getD i Cell.nan
  | none => Cell.nan

/-- Python `str()` of a raw cell; a missing value prints as `nan`. -/
def pyStr : Cell → String
  | .str s => s
  | .nan => "nan"

/-- `.strip()` on a cell: only strings have the attribute; a missing value
is a float and raises `AttributeError`. -/
def pyStrip : Cell → Except PyError String
  | .str s => .ok (String.mk (trimChars s.data))
  | .nan => .error (.attributeError "float object has no attribute strip")

/-- Replace every comma by a period (`str.replace(",", ".")`). -/
def commaDot (c : Char) : Char := if c = ',' then '.' else c

/-- Lines 141 and 151: coerce the cell text (commas replaced by periods) to
a number; a `NaN` result (unparseable or missing cell) becomes `0.00`,
anything else is rounded to two decimal places. -/
def cellValor (c : Cell) : PyFloat :=
  let value := to_numeric_coerce ((pyStr c).data.map commaDot)
  if value ≠ PyFloat.nan then pyRound2 value else .fin 0

/-- One iteration of the inner loop of `transform_data` (lines 134-152):
build the record for one row and one date column, or raise.  The error
order follows the source: date-column parsing, the `{month:02d}` format
(a `TypeError` when the month lookup returned `None`), the `month_names`
subscript, and `Categoria.strip()`. -/
def mkRecord (cols : List String) (row : List Cell) (date_col : String) :
    Except PyError Obs :=
  match parse_date_column date_col with
  | .error e => .error e
  | .ok (none, _year) => .error (.typeError "unsupported format string passed to NoneType")
  | .ok (some month, year) =>
    let date_str := formatDate year month
    let value := cellValor (getCell cols row date_col)
    match month_names month with
    | none => .error (.keyError (String.mk (natToChars month)))
    | some mes_nome =>
      match pyStrip (getCell cols row "Categoria") with
      | .error e => .error e
      | .ok cat =>
        .ok { Data := date_str, Ano := year, Mes := month, Mes_Nome := mes_nome,
              Tipo := getCell cols row "Tipo", Grupo := getCell cols row "Grupo",
              Categoria := cat, Valor := value }

/-- The inner loop over date columns, in header order. -/
def rowRecords (cols : List String) (row : List Cell) :
    List String → Except PyError (List Obs)
  | [] => .ok []
  | c :: cs =>
    match mkRecord cols row c with
    | .error e => .error e
    | .ok o =>
      match rowRecords cols row cs with
      | .error e => .error e
      | .ok os => .ok (o :: os)

/-- The outer loop over rows (`df.iterrows()`), accumulating row-major. -/
def allRecords (cols : List String) (date_cols : List String) :
    List (List Cell) → Except PyError (List Obs)
  | [] => .ok []
  | r :: rs =>
    match rowRecords cols r date_cols with
    | .error e => .error e
    | .ok os =>
      match allRecords cols date_cols rs with
      | .error e => .error e
      | .ok rest => .ok (os ++ rest)

/-! ### The sort

`sort_values(["Data", "Tipo", "Grupo", "Categoria"])` sorts ascending and
lexicographically over the four key columns; in an object column, strings
compare by code points and missing values are placed last
(`na_position="last"`).  The embedding uses a stable insertion sort with a
boolean comparator on exactly that key. -/

/-- Lexicographic `≤` decision on character lists (Python string order,
code point by code point). -/
def charListLE : List Char → List Char → Bool
  | [], _ => true
  | _ :: _, [] => false
  | a :: as, b :: bs => if a < b then true else if b < a then false else charListLE as bs

/-- Sort key of a cell in an object key column: the flag orders every
string (`false`) before every missing value (`true`). -/
def cellKeyb (c : Cell) : Bool × List Char :=
  match c with
  | .str s => (false, s.data)
  | .nan => (true, [])

/-- `≤` on encoded cell keys. -/
def cellKeyLE (x y : Bool × List Char) : Bool :=
  if x.1 = y.1 then charListLE x.2 y.2 else !x.1

/-- The boolean comparator of the sort: lexicographic on
(`Data`, `Tipo`, `Grupo`, `Categoria`). -/
def obsLEb (a b : Obs) : Bool :=
  if a.Data = b.Data then
    if cellKeyb a.Tipo = cellKeyb b.Tipo then
      if cellKeyb a.Grupo = cellKeyb b.Grupo then
        charListLE a.Categoria.data b.Categoria.data
      else cellKeyLE (cellKeyb a.Grupo) (cellKeyb b.Grupo)
    else cellKeyLE (cellKeyb a.Tipo) (cellKeyb b.Tipo)
  else charListLE a.Data.data b.Data.data

/-- The comparator as a decidable relation. -/
def obsLE (a b : Obs) : Prop := obsLEb a b = true

instance : DecidableRel obsLE := fun a b => instDecidableEqBool (obsLEb a b) true

/-- `transformed_df.sort_values(["Data", "Tipo", "Grupo", "Categoria"])`:
a stable sort by the four-part key. -/
def sort_values (l : List Obs) : List Obs := List.insertionSort obsLE l

/-- `transform_data` with the file I/O elided: validate the header, reshape
every (row, date column) pair row-major, and sort the records. -/
def transform_data (t : Table) : Except PyError (List Obs) :=
  match validate_input_data t.cols with
  | .error e => .error e
  | .ok _ =>
    match allRecords t.cols (date_column_names t.cols) t.rows with
    | .error e => .error e
    | .ok records => .ok (sort_values records)

/-! ### Proposition-level sort keys

Mathlib's lexicographic product order expresses the sort contract; the
boolean comparator above is proved equivalent to it below. -/

/-- The key of a cell in an object key column, as a lexicographic pair:
strings (flag `false`) before missing values (flag `true`). -/
def cellKeyP (c : Cell) : Bool ×ₗ String :=
  toLex ((cellKeyb c).1, String.mk (cellKeyb c).2)

/-- The full sort key of a record. -/
def obsKey (o : Obs) : String ×ₗ ((Bool ×ₗ String) ×ₗ ((Bool ×ₗ String) ×ₗ String)) :=
  toLex (o.Data, toLex (cellKeyP o.Tipo, toLex (cellKeyP o.Grupo, o.Categoria)))

/-- The sort key as the spec states it, a four-tuple of strings, meaningful
when `Tipo` and `Grupo` hold strings (`pyStr` is then the string itself). -/
def stringKey (o : Obs) : String ×ₗ (String ×ₗ (String ×ₗ String)) :=
  toLex (o.Data, toLex (pyStr o.Tipo, toLex (pyStr o.Grupo, o.Categoria)))

/-! ### Concrete example tables -/

/-- The end-to-end scenario input row of the spec. -/
def exRow : List Cell :=
  [.str "Entrada", .str "Vendas", .str " Produtos ", .str "1.500,00", .str "2000"]

/-- The end-to-end scenario input table. -/
def exTable : Table :=
  { cols := ["Tipo", "Grupo", "Categoria", "Jan/24", "Fev/24"], rows := [exRow] }

/-- The record the code produces for the `Jan/24` cell `"1.500,00"`: the
comma-replaced text `1.500.00` is not numeric, so the value is zero. -/
def exObsJan : Obs :=
  { Data := "2024-01-01", Ano := 2024, Mes := 1, Mes_Nome := "Janeiro",
    Tipo := .str "Entrada", Grupo := .str "Vendas", Categoria := "Produtos",
    Valor := .fin 0 }

/-- The record the spec scenario expects for the `Jan/24` cell. -/
def exObsJan1500 : Obs :=
  { Data := "2024-01-01", Ano := 2024, Mes := 1, Mes_Nome := "Janeiro",
    Tipo := .str "Entrada", Grupo := .str "Vendas", Categoria := "Produtos",
    Valor := .fin 1500 }

/-- The record for the `Fev/24` cell `"2000"`. -/
def exObsFev : Obs :=
  { Data := "2024-02-01", Ano := 2024, Mes := 2, Mes_Nome := "Fevereiro",
    Tipo := .str "Entrada", Grupo := .str "Vendas", Categoria := "Produtos",
    Valor := .fin 2000 }

/-- A table whose one date cell is the text `inf`. -/
def infTable : Table :=
  { cols := ["Tipo", "Grupo", "Categoria", "Jan/24"],
    rows := [[.str "Entrada", .str "Vendas", .str "X", .str "inf"]] }

/-- The record produced for `infTable`: `float("inf")` succeeds,
`pd.notnull` holds, and `round(inf, 2)` is infinite. -/
def infObs : Obs :=
  { Data := "2024-01-01", Ano := 2024, Mes := 1, Mes_Nome := "Janeiro",
    Tipo := .str "Entrada", Grupo := .str "Vendas", Categoria := "X",
    Valor := .inf }

/-- A table passing validation whose `Categoria` cell is missing (`NaN`). -/
def nanCatTable : Table :=
  { cols := ["Tipo", "Grupo", "Categoria", "Jan/24"],
    rows := [[.str "Entrada", .str "Vendas", Cell.nan, .str "10"]] }

/-- A table missing the `Categoria` column. -/
def missingCatTable : Table :=
  { cols := ["Tipo", "Grupo", "Jan/24"],
    rows := [[.str "Entrada", .str "Vendas", .str "10"]] }

/-- A table with the identifying columns and only a `Total` extra column. -/
def totalOnlyTable : Table :=
  { cols := ["Tipo", "Grupo", "Categoria", "Total"],
    rows := [[.str "E", .str "G", .str "C", .str "1"]] }

/-- A table whose only date column has an unknown month abbreviation. -/
def fooTable : Table :=
  { cols := ["Tipo", "Grupo", "Categoria", "Foo/24"],
    rows := [[.str "Entrada", .str "Vendas", .str "C", .str "1"]] }

/-! ### Structural lemmas about the reshape loops -/

theorem rowRecords_ok_length {cols : List String} {row : List Cell} :
    ∀ {cs : List String} {os : List Obs},
      rowRecords cols row cs = .ok os → os.length = cs.length := by
  intro cs
  induction cs with
  | nil => intro os h; simp only [rowRecords, Except.ok.injEq] at h; simp [← h]
  | cons c cs ih =>
    intro os h
    simp only [rowRecords] at h
    split at h
    · exact absurd h (by simp)
    · split at h
      · exact absurd h (by simp)
      · simp only [Except.ok.injEq] at h
        subst h
        simp only [List.length_cons]
        rename_i _ _ hr
        rw [ih hr]

theorem allRecords_ok_length {cols date_cols : List String} :
    ∀ {rows : List (List Cell)} {os : List Obs},
      allRecords cols date_cols rows = .ok os →
        os.length = rows.length * date_cols.length := by
  intro rows
  induction rows with
  | nil => intro os h; simp only [allRecords, Except.ok.injEq] at h; simp [← h]
  | cons r rs ih =>
    intro os h
    simp only [allRecords] at h
    split at h
    · exact absurd h (by simp)
    · split at h
      · exact absurd h (by simp)
      · simp only [Except.ok.injEq] at h
        subst h
        rename_i _ hrow _ _ hrest
        simp [List.length_append, rowRecords_ok_length hrow, ih hrest,
          Nat.succ_mul, Nat.add_comm]

theorem rowRecords_ok_mem {cols : List String} {row : List Cell} :
    ∀ {cs : List String} {os : List Obs} {c : String},
      rowRecords cols row cs = .ok os → c ∈ cs →
        ∃ o, mkRecord cols row c = .ok o ∧ o ∈ os := by
  intro cs
  induction cs with
  | nil => intro os c _ hc; exact absurd hc (by simp)
  | cons c0 cs ih =>
    intro os c h hc
    simp only [rowRecords] at h
    split at h
    · exact absurd h (by simp)
    · split at h
      · exact absurd h (by simp)
      · simp only [Except.ok.injEq] at h
        subst h
        rename_i o hmk _ os2 hr
        rcases List.mem_cons.mp hc with hceq | hcmem
        · exact ⟨o, hceq ▸ hmk, List.mem_cons_self o os2⟩
        · obtain ⟨o2, hmk2, hmem2⟩ := ih hr hcmem
          exact ⟨o2, hmk2, List.mem_cons_of_mem o hmem2⟩

theorem allRecords_ok_mem {cols date_cols : List String} :
    ∀ {rows : List (List Cell)} {os : List Obs} {r : List Cell} {c : String},
      allRecords cols date_cols rows = .ok os → r ∈ rows → c ∈ date_cols →
        ∃ o, mkRecord cols r c = .ok o ∧ o ∈ os := by
  intro rows
  induction rows with
  | nil => intro os r c _ hr; exact absurd hr (by simp)
  | cons r0 rs ih =>
    intro os r c h hr hc
    simp only [allRecords] at h
    split at h
    · exact absurd h (by simp)
    · split at h
      · exact absurd h (by simp)
      · simp only [Except.ok.injEq] at h
        subst h
        rename_i os1 hrow _ os2 hrest
        rcases List.mem_cons.mp hr with hreq | hrmem
        · obtain ⟨o, hmk, hmem⟩ := rowRecords_ok_mem (hreq ▸ hrow) hc
          exact ⟨o, hmk, List.mem_append_left _ hmem⟩
        · obtain ⟨o, hmk, hmem⟩ := ih hrest hrmem hc
          exact ⟨o, hmk, List.mem_append_right _ hmem⟩

theorem rowRecords_mem_src {cols : List String} {row : List Cell} :
    ∀ {cs : List String} {os : List Obs} {o : Obs},
      rowRecords cols row cs = .ok os → o ∈ os →
        ∃ c ∈ cs, mkRecord cols row c = .ok o := by
  intro cs
  induction cs with
  | nil =>
    intro os o h ho
    simp only [rowRecords, Except.ok.injEq] at h
    subst h
    exact absurd ho (by simp)
  | cons c0 cs ih =>
    intro os o h ho
    simp only [rowRecords] at h
    split at h
    · exact absurd h (by simp)
    · split at h
      · exact absurd h (by simp)
      · simp only [Except.ok.injEq] at h
        subst h
        rename_i o0 hmk _ os2 hr
        rcases List.mem_cons.mp ho with hoeq | homem
        · exact ⟨c0, List.mem_cons_self c0 cs, hoeq ▸ hmk⟩
        · obtain ⟨c, hc, hmk2⟩ := ih hr homem
          exact ⟨c, List.mem_cons_of_mem c0 hc, hmk2⟩

theorem allRecords_mem_src {cols date_cols : List String} :
    ∀ {rows : List (List Cell)} {os : List Obs} {o : Obs},
      allRecords cols date_cols rows = .ok os → o ∈ os →
        ∃ r ∈ rows, ∃ c ∈ date_cols, mkRecord cols r c = .ok o := by
  intro rows
  induction rows with
  | nil =>
    intro os o h ho
    simp only [allRecords, Except.ok.injEq] at h
    subst h
    exact absurd ho (by simp)
  | cons r0 rs ih =>
    intro os o h ho
    simp only [allRecords] at h
    split at h
    · exact absurd h (by simp)
    · split at h
      · exact absurd h (by simp)
      · simp only [Except.ok.injEq] at h
        subst h
        rename_i os1 hrow _ os2 hrest
        rcases List.mem_append.mp ho with h1 | h2
        · obtain ⟨c, hc, hmk⟩ := rowRecords_mem_src hrow h1
          exact ⟨r0, List.mem_cons_self r0 rs, c, hc, hmk⟩
        · obtain ⟨r, hr, c, hc, hmk⟩ := ih hrest h2
          exact ⟨r, List.mem_cons_of_mem r0 hr, c, hc, hmk⟩

theorem rowRecords_error_src {cols : List String} {row : List Cell} :
    ∀ {cs : List String} {e : PyError},
      rowRecords cols row cs = .error e →
        ∃ c ∈ cs, mkRecord cols row c = .error e := by
  intro cs
  induction cs with
  | nil => intro e h; exact absurd h (by simp [rowRecords])
  | cons c0 cs ih =>
    intro e h
    simp only [rowRecords] at h
    split at h
    · simp only [Except.error.injEq] at h
      subst h
      rename_i hmk
      exact ⟨c0, List.mem_cons_self c0 cs, hmk⟩
    · split at h
      · simp only [Except.error.injEq] at h
        subst h
        rename_i hr
        obtain ⟨c, hc, hmk⟩ := ih hr
        exact ⟨c, List.mem_cons_of_mem c0 hc, hmk⟩
      · exact absurd h (by simp)

theorem allRecords_error_src {cols date_cols : List String} :
    ∀ {rows : List (List Cell)} {e : PyError},
      allRecords cols date_cols rows = .error e →
        ∃ r ∈ rows, ∃ c ∈ date_cols, mkRecord cols r c = .error e := by
  intro rows
  induction rows with
  | nil => intro e h; exact absurd h (by simp [allRecords])
  | cons r0 rs ih =>
    intro e h
    simp only [allRecords] at h
    split at h
    · simp only [Except.error.injEq] at h
      subst h
      rename_i hrow
      obtain ⟨c, hc, hmk⟩ := rowRecords_error_src hrow
      exact ⟨r0, List.mem_cons_self r0 rs, c, hc, hmk⟩
    · split at h
      · simp only [Except.error.injEq] at h
        subst h
        rename_i hrest
        obtain ⟨r, hr, c, hc, hmk⟩ := ih hrest
        exact ⟨r, List.mem_cons_of_mem r0 hr, c, hc, hmk⟩
      · exact absurd h (by simp)

/-! ### Lemmas about the validator and the record builder -/

theorem validate_ok_true {cols : List String} {b : Bool}
    (h : validate_input_data cols = .ok b) : b = true := by
  simp only [validate_input_data] at h
  split at h
  · split at h
    · exact absurd h (by simp)
    · simp only [Except.ok.injEq] at h; exact h.symm
  · exact absurd h (by simp)

theorem validate_error_valueError {cols : List String} {e : PyError}
    (h : validate_input_data cols = .error e) : ∃ m, e = .valueError m := by
  simp only [validate_input_data] at h
  split at h
  · split at h
    · simp only [Except.error.injEq] at h; exact ⟨_, h.symm⟩
    · exact absurd h (by simp)
  · simp only [Except.error.injEq] at h; exact ⟨_, h.symm⟩

theorem parse_error_valueError {s : String} {e : PyError}
    (h : parse_date_column s = .error e) : ∃ m, e = .valueError m := by
  unfold parse_date_column at h
  split at h
  · split at h
    · exact absurd h (by simp)
    · simp only [Except.error.injEq] at h; exact ⟨_, h.symm⟩
  · split at h <;> (simp only [Except.error.injEq] at h; exact ⟨_, h.symm⟩)

theorem transform_data_ok {t : Table} {out : List Obs}
    (h : transform_data t = .ok out) :
    validate_input_data t.cols = .ok true ∧
      ∃ recs, allRecords t.cols (date_column_names t.cols) t.rows = .ok recs ∧
        out = sort_values recs := by
  unfold transform_data at h
  split at h
  · exact absurd h (by simp)
  · rename_i b hv
    split at h
    · exact absurd h (by simp)
    · rename_i recs hrecs
      simp only [Except.ok.injEq] at h
      exact ⟨(validate_ok_true hv) ▸ hv, recs, hrecs, h.symm⟩

theorem transform_data_error {t : Table} {e : PyError}
    (h : transform_data t = .error e) :
    validate_input_data t.cols = .error e ∨
      allRecords t.cols (date_column_names t.cols) t.rows = .error e := by
  unfold transform_data at h
  split at h
  · rename_i hv
    simp only [Except.error.injEq] at h
    exact Or.inl (h ▸ hv)
  · split at h
    · rename_i hrecs
      simp only [Except.error.injEq] at h
      exact Or.inr (h ▸ hrecs)
    · exact absurd h (by simp)

theorem mkRecord_ok_fields {cols : List String} {row : List Cell}
    {dc : String} {o : Obs} (h : mkRecord cols row dc = .ok o) :
    parse_date_column dc = .ok (some o.Mes, o.Ano) ∧
      o.Data = formatDate o.Ano o.Mes ∧
      month_names o.Mes = some o.Mes_Nome ∧
      o.Tipo = getCell cols row "Tipo" ∧
      o.Grupo = getCell cols row "Grupo" ∧
      pyStrip (getCell cols row "Categoria") = .ok o.Categoria ∧
      o.Valor = cellValor (getCell cols row dc) := by
  unfold mkRecord at h
  split at h
  · exact absurd h (by simp)
  · exact absurd h (by simp)
  · rename_i month year hp
    split at h
    · exact absurd h (by simp)
    · rename_i mes_nome hname
      split at h
      · exact absurd h (by simp)
      · rename_i cat hcat
        simp only [Except.ok.injEq] at h
        subst h
        exact ⟨hp, rfl, hname, rfl, rfl, hcat, rfl⟩

theorem mkRecord_attrError {cols : List String} {row : List Cell}
    {dc : String} {m : String}
    (h : mkRecord cols row dc = .error (.attributeError m)) :
    getCell cols row "Categoria" = Cell.nan := by
  unfold mkRecord at h
  split at h
  · rename_i e hp
    simp only [Except.error.injEq] at h
    obtain ⟨m2, hm2⟩ := parse_error_valueError (h ▸ hp)
    exact absurd hm2 (by simp)
  · simp only [Except.error.injEq] at h
    exact absurd h.symm (by simp)
  · split at h
    · simp only [Except.error.injEq] at h
      exact absurd h.symm (by simp)
    · split at h
      · rename_i e hstrip
        simp only [Except.error.injEq] at h
        subst h
        cases hcell : getCell cols row "Categoria" with
        | str s => rw [hcell] at hstrip; exact absurd hstrip (by simp [pyStrip])
        | nan => rfl
      · exact absurd h (by simp)

theorem cellValor_ne_nan (c : Cell) : cellValor c ≠ .nan := by
  simp only [cellValor]
  split
  · rename_i hne
    cases hv : to_numeric_coerce ((pyStr c).data.map commaDot) <;>
      simp_all [pyRound2]
  · simp

theorem cellValor_zero {c : Cell}
    (h : to_numeric_coerce ((pyStr c).data.map commaDot) = .nan) :
    cellValor c = .fin 0 := by
  simp only [cellValor]
  split
  · rename_i hne; exact absurd h hne
  · rfl

theorem cellValor_fin {c : Cell}
    (h1 : to_numeric_coerce ((pyStr c).data.map commaDot) ≠ .inf)
    (h2 : to_numeric_coerce ((pyStr c).data.map commaDot) ≠ .ninf) :
    ∃ q, cellValor c = .fin q := by
  simp only [cellValor]
  split
  · cases hv : to_numeric_coerce ((pyStr c).data.map commaDot) <;> simp_all [pyRound2]
  · exact ⟨0, rfl⟩

theorem month_map_range {s : String} {m : Nat} (h : month_map s = some m) :
    1 ≤ m ∧ m ≤ 12 := by
  simp only [month_map, Option.map_eq_some'] at h
  obtain ⟨p, hfind, hval⟩ := h
  have hmem := List.mem_of_find?_eq_some hfind
  have hall : ∀ p ∈ month_map_entries, 1 ≤ p.2 ∧ p.2 ≤ 12 := by decide
  exact hval ▸ hall p hmem

theorem month_names_total {m : Nat} (h1 : 1 ≤ m) (h2 : m ≤ 12) :
    ∃ s, month_names m = some s := by
  interval_cases m <;> exact ⟨_, rfl⟩

/-! ### Correctness of the sort comparator -/

theorem charListLE_iff_not_lt : ∀ l₁ l₂ : List Char,
    charListLE l₁ l₂ = true ↔ ¬ List.lt l₂ l₁ := by
  intro l₁
  induction l₁ with
  | nil =>
    intro l₂
    simp only [charListLE]
    constructor
    · intro _ h; cases h
    · intro _; trivial
  | cons a as ih =>
    intro l₂
    cases l₂ with
    | nil =>
      simp only [charListLE]
      constructor
      · intro h; cases h
      · intro h; exact absurd (List.lt.nil a as) h
    | cons b bs =>
      simp only [charListLE]
      by_cases hab : a < b
      · simp only [if_pos hab]
        constructor
        · intro _ hlt
          cases hlt with
          | head _ _ h => exact (lt_asymm h) hab
          | tail h1 h2 h3 => exact h2 hab
        · intro _; trivial
      · simp only [if_neg hab]
        by_cases hba : b < a
        · simp only [if_pos hba]
          constructor
          · intro h; cases h
          · intro h; exact absurd (List.lt.head bs as hba) h
        · simp only [if_neg hba]
          rw [ih bs]
          constructor
          · intro h hlt
            cases hlt with
            | head _ _ h2 => exact hba h2
            | tail _ _ h3 => exact h h3
          · intro h hlt
            exact h (List.lt.tail hba hab hlt)

theorem charListLE_strLE (s t : String) :
    charListLE s.data t.data = true ↔ s ≤ t := by
  rw [charListLE_iff_not_lt]
  have h : t < s ↔ List.lt t.data s.data := by
    rw [String.lt_iff_toList_lt]
    exact (List.lt_iff_lex_lt t.data s.data).symm
  rw [← h]
  exact not_lt

theorem cellKeyP_inj {c d : Cell} :
    cellKeyP c = cellKeyP d ↔ cellKeyb c = cellKeyb d := by
  simp only [cellKeyP, toLex_inj, Prod.ext_iff]
  constructor
  · rintro ⟨h1, h2⟩
    exact ⟨h1, congrArg String.data h2⟩
  · rintro ⟨h1, h2⟩
    exact ⟨h1, congrArg String.mk h2⟩

theorem cellKeyLE_iff (x y : Bool × List Char) :
    cellKeyLE x y = true ↔
      toLex (x.1, String.mk x.2) ≤ toLex (y.1, String.mk y.2) := by
  unfold cellKeyLE
  rw [Prod.Lex.le_iff]
  by_cases hxy : x.1 = y.1
  · rw [if_pos hxy, hxy]
    simp only [lt_self_iff_false, false_or, true_and]
    exact charListLE_strLE (String.mk x.2) (String.mk y.2)
  · rw [if_neg hxy]
    cases hx : x.1 <;> cases hy : y.1 <;>
      simp_all [Bool.lt_iff]

theorem obsLEb_iff (a b : Obs) : obsLEb a b = true ↔ obsKey a ≤ obsKey b := by
  unfold obsLEb obsKey
  rw [Prod.Lex.le_iff]
  by_cases hD : a.Data = b.Data
  · rw [if_pos hD, hD]
    simp only [lt_self_iff_false, false_or, true_and]
    rw [Prod.Lex.le_iff]
    by_cases hT : cellKeyb a.Tipo = cellKeyb b.Tipo
    · rw [if_pos hT]
      have hTP : cellKeyP a.Tipo = cellKeyP b.Tipo := cellKeyP_inj.mpr hT
      rw [hTP]
      simp only [lt_self_iff_false, false_or, true_and]
      rw [Prod.Lex.le_iff]
      by_cases hG : cellKeyb a.Grupo = cellKeyb b.Grupo
      · rw [if_pos hG]
        have hGP : cellKeyP a.Grupo = cellKeyP b.Grupo := cellKeyP_inj.mpr hG
        rw [hGP]
        simp only [lt_self_iff_false, false_or, true_and]
        exact charListLE_strLE a.Categoria b.Categoria
      · rw [if_neg hG]
        have hGP : cellKeyP a.Grupo ≠ cellKeyP b.Grupo :=
          fun hcon => hG (cellKeyP_inj.mp hcon)
        simp only [hGP, false_and, or_false]
        rw [lt_iff_le_and_ne]
        simp only [ne_eq, hGP, not_false_eq_true, and_true]
        exact cellKeyLE_iff (cellKeyb a.Grupo) (cellKeyb b.Grupo)
    · rw [if_neg hT]
      have hTP : cellKeyP a.Tipo ≠ cellKeyP b.Tipo :=
        fun hcon => hT (cellKeyP_inj.mp hcon)
      simp only [hTP, false_and, or_false]
      rw [lt_iff_le_and_ne]
      simp only [ne_eq, hTP, not_false_eq_true, and_true]
      exact cellKeyLE_iff (cellKeyb a.Tipo) (cellKeyb b.Tipo)
  · rw [if_neg hD]
    simp only [hD, false_and, or_false]
    rw [lt_iff_le_and_ne]
    simp only [ne_eq, hD, not_false_eq_true, and_true]
    exact charListLE_strLE a.Data b.Data

instance obsLE_total : IsTotal Obs obsLE :=
  ⟨fun a b => by
    simp only [obsLE, obsLEb_iff]
    exact le_total (obsKey a) (obsKey b)⟩

instance obsLE_trans : IsTrans Obs obsLE :=
  ⟨fun a b c hab hbc => by
    simp only [obsLE, obsLEb_iff] at *
    exact le_trans hab hbc⟩

theorem sort_values_sorted (l : List Obs) : List.Sorted obsLE (sort_values l) :=
  List.sorted_insertionSort obsLE l

theorem sort_values_perm (l : List Obs) : (sort_values l).Perm l :=
  List.perm_insertionSort obsLE l

/-- When `Tipo` and `Grupo` hold strings, the internal sort key compares
exactly as the four-string tuple of the contract. -/
theorem obsKey_le_iff_stringKey_le {a b : Obs} {sa ga sb gb : String}
    (haT : a.Tipo = .str sa) (haG : a.Grupo = .str ga)
    (hbT : b.Tipo = .str sb) (hbG : b.Grupo = .str gb) :
    (obsKey a ≤ obsKey b) ↔ stringKey a ≤ stringKey b := by
  unfold obsKey stringKey cellKeyP cellKeyb pyStr
  rw [haT, haG, hbT, hbG]
  simp only [Prod.Lex.le_iff, Prod.Lex.lt_iff, toLex_inj, Prod.mk.injEq,
    lt_self_iff_false, false_and, and_false, false_or, or_false, true_and,
    and_true, eq_self_iff_true]

/-! ### Concrete evaluations of the end-to-end scenario -/

theorem cellValor_str2000 : cellValor (Cell.str "2000") = .fin 2000 := by
  have h1 : to_numeric_coerce ((pyStr (Cell.str "2000")).data.map commaDot)
      = PyFloat.fin ((2000 : ℕ) : ℚ) := by decide
  simp only [cellValor, h1]
  norm_num [pyRound2, round2, roundHalfEven]
  simp

theorem mkRecord_fev : mkRecord exTable.cols exRow "Fev/24" = .ok exObsFev := by
  have hp : parse_date_column "Fev/24" = .ok (some 2, 2024) := by decide
  have hc : getCell exTable.cols exRow "Fev/24" = Cell.str "2000" := by decide
  have hcat : pyStrip (getCell exTable.cols exRow "Categoria") = .ok "Produtos" := by decide
  have hname : month_names 2 = some "Fevereiro" := by decide
  simp only [mkRecord, hp, hc, hcat, hname, cellValor_str2000]
  have htipo : getCell exTable.cols exRow "Tipo" = Cell.str "Entrada" := by decide
  have hgrupo : getCell exTable.cols exRow "Grupo" = Cell.str "Vendas" := by decide
  have hdate : formatDate 2024 2 = "2024-02-01" := by decide
  simp only [htipo, hgrupo, hdate]
  rfl

theorem mkRecord_jan : mkRecord exTable.cols exRow "Jan/24" = .ok exObsJan := by decide

theorem transform_exTable : transform_data exTable = .ok [exObsJan, exObsFev] := by
  have hval : validate_input_data exTable.cols = .ok true := by decide
  have hdc : date_column_names exTable.cols = ["Jan/24", "Fev/24"] := by decide
  have hrow : rowRecords exTable.cols exRow ["Jan/24", "Fev/24"]
      = .ok [exObsJan, exObsFev] := by
    simp only [rowRecords, mkRecord_jan, mkRecord_fev]
  have hall : allRecords exTable.cols (date_column_names exTable.cols) exTable.rows
      = .ok [exObsJan, exObsFev] := by
    rw [hdc]
    show allRecords exTable.cols _ [exRow] = _
    simp only [allRecords, hrow, List.append_nil]
  have hs : sort_values [exObsJan, exObsFev] = [exObsJan, exObsFev] := by decide
  simp only [transform_data, hval, hall, hs]

theorem transform_infTable : transform_data infTable = .ok [infObs] := by decide

theorem nanCat_validates : validate_input_data nanCatTable.cols = .ok true := by decide

theorem nanCat_raises : transform_data nanCatTable
    = .error (.attributeError "float object has no attribute strip") := by decide

/-! ### The claims -/

/-- Claim C1: whenever the transform completes on a validated table, the
output has exactly (row count) × (date-column count) records, one per
(row, date column) pair, none dropped. -/
theorem row_count_law {t : Table} {out : List Obs}
    (h : transform_data t = .ok out) :
    out.length = t.rows.length * (date_column_names t.cols).length ∧
      ∀ r ∈ t.rows, ∀ c ∈ date_column_names t.cols,
        ∃ o, mkRecord t.cols r c = .ok o ∧ o ∈ out := by
  obtain ⟨hval, recs, hrecs, hout⟩ := transform_data_ok h
  subst hout
  constructor
  · rw [(sort_values_perm recs).length_eq]
    exact allRecords_ok_length hrecs
  · intro r hr c hc
    obtain ⟨o, hmk, ho⟩ := allRecords_ok_mem hrecs hr hc
    exact ⟨o, hmk, (sort_values_perm recs).mem_iff.mpr ho⟩

/-- Claim C1, witness at the end-to-end scenario table: one row and two date
columns give two records. -/
theorem row_count_law_witness :
    transform_data exTable = .ok [exObsJan, exObsFev] ∧
      ([exObsJan, exObsFev] : List Obs).length
        = exTable.rows.length * (date_column_names exTable.cols).length :=
  ⟨transform_exTable, (row_count_law transform_exTable).1⟩

/-- Claim C2: when the transform completes and every `Tipo` and `Grupo` cell
of the input holds a string, each adjacent pair of output records is
non-decreasing in the lexicographic key
(ISO date, `Tipo`, `Grupo`, `Categoria`). -/
theorem sort_invariant {t : Table} {out : List Obs}
    (ht : transform_data t = .ok out)
    (hT : ∀ r ∈ t.rows, getCell t.cols r "Tipo" ≠ Cell.nan)
    (hG : ∀ r ∈ t.rows, getCell t.cols r "Grupo" ≠ Cell.nan) :
    out.Chain' (fun a b => stringKey a ≤ stringKey b) := by
  obtain ⟨hval, recs, hrecs, hout⟩ := transform_data_ok ht
  subst hout
  have hsorted : List.Pairwise obsLE (sort_values recs) := sort_values_sorted recs
  have hmem : ∀ o ∈ sort_values recs,
      (∃ s, o.Tipo = Cell.str s) ∧ ∃ s, o.Grupo = Cell.str s := by
    intro o ho
    obtain ⟨r, hr, c, hc, hmk⟩ :=
      allRecords_mem_src hrecs ((sort_values_perm recs).mem_iff.mp ho)
    obtain ⟨_, _, _, hTipo, hGrupo, _, _⟩ := mkRecord_ok_fields hmk
    constructor
    · cases hcell : getCell t.cols r "Tipo" with
      | str s => exact ⟨s, hTipo.trans hcell⟩
      | nan => exact absurd hcell (hT r hr)
    · cases hcell : getCell t.cols r "Grupo" with
      | str s => exact ⟨s, hGrupo.trans hcell⟩
      | nan => exact absurd hcell (hG r hr)
  have hpair : List.Pairwise (fun a b => stringKey a ≤ stringKey b)
      (sort_values recs) := by
    refine hsorted.imp_of_mem ?_
    intro a b ha hb hab
    obtain ⟨⟨sa, hsa⟩, ⟨ga, hga⟩⟩ := hmem a ha
    obtain ⟨⟨sb, hsb⟩, ⟨gb, hgb⟩⟩ := hmem b hb
    exact (obsKey_le_iff_stringKey_le hsa hga hsb hgb).mp ((obsLEb_iff a b).mp hab)
  exact hpair.chain'

/-- Claim C2, witness at the end-to-end scenario table. -/
theorem sort_invariant_witness :
    List.Chain' (fun a b => stringKey a ≤ stringKey b) [exObsJan, exObsFev] :=
  sort_invariant transform_exTable (by decide) (by decide)

/-- Claim C3, counterexample: the scenario input does not produce the
expected pair of records, because the `Jan/24` value comes out as `0.00`
rather than `1500.00` (`"1.500,00"` → `"1.500.00"`, not numeric). -/
theorem end_to_end_scenario_cex :
    transform_data exTable ≠ .ok [exObsJan1500, exObsFev] := by
  rw [transform_exTable]
  intro h
  simp only [Except.ok.injEq, List.cons.injEq, and_true] at h
  have hv := congrArg Obs.Valor h
  simp only [exObsJan, exObsJan1500, PyFloat.fin.injEq] at hv
  norm_num at hv

/-- Claim C3 as amended: the scenario input produces exactly the two records
(2024-01-01, …, 0.00) and (2024-02-01, …, 2000.00), in that order. -/
theorem end_to_end_scenario_amended :
    transform_data exTable = .ok [exObsJan, exObsFev] ∧
      exObsJan.Valor = .fin 0 ∧ exObsFev.Valor = .fin 2000 :=
  ⟨transform_exTable, rfl, rfl⟩

/-- Claim C4: a date-column cell whose text (after replacing commas with
periods) is not numeric yields a record that is still emitted, with `Valor`
exactly `0.00`. -/
theorem zero_fill_law {t : Table} {out : List Obs} {r : List Cell} {c : String}
    (h : transform_data t = .ok out) (hr : r ∈ t.rows)
    (hc : c ∈ date_column_names t.cols)
    (hv : to_numeric_coerce ((pyStr (getCell t.cols r c)).data.map commaDot)
      = .nan) :
    ∃ o, mkRecord t.cols r c = .ok o ∧ o ∈ out ∧ o.Valor = .fin 0 := by
  obtain ⟨hval, recs, hrecs, hout⟩ := transform_data_ok h
  subst hout
  obtain ⟨o, hmk, ho⟩ := allRecords_ok_mem hrecs hr hc
  obtain ⟨_, _, _, _, _, _, hValor⟩ := mkRecord_ok_fields hmk
  refine ⟨o, hmk, (sort_values_perm recs).mem_iff.mpr ho, ?_⟩
  rw [hValor]
  exact cellValor_zero hv

/-- Claim C4, witness: the `Jan/24` cell `"1.500,00"` of the scenario table
is unparseable after comma replacement and still yields a record, with value
zero. -/
theorem zero_fill_law_witness :
    ∃ o, mkRecord exTable.cols exRow "Jan/24" = .ok o ∧
      o ∈ [exObsJan, exObsFev] ∧ o.Valor = .fin 0 :=
  zero_fill_law transform_exTable (by decide) (by decide) (by decide)

/-- Claim C5, counterexample: on an unknown month abbreviation the
date-column parser does not throw — it returns the sentinel `None` for the
month (the run aborts only later, at the `{month:02d}` format). -/
theorem parse_date_sentinel_cex :
    parse_date_column "Foo/24" = .ok (none, 2024) := by decide

/-- Claim C5 as amended: the condition still does not pass silently — if any
date column's month token misses the dictionary and the table has at least
one row, the whole run aborts with an error. -/
theorem unknown_month_aborts {t : Table} {c : String} {y : Int}
    (hc : c ∈ date_column_names t.cols)
    (hp : parse_date_column c = .ok (none, y))
    (hrows : t.rows ≠ []) :
    ∃ e, transform_data t = .error e := by
  cases hres : transform_data t with
  | error e => exact ⟨e, rfl⟩
  | ok out =>
    obtain ⟨hval, recs, hrecs, hout⟩ := transform_data_ok hres
    obtain ⟨r, hr⟩ := List.exists_mem_of_ne_nil t.rows hrows
    obtain ⟨o, hmk, _⟩ := allRecords_ok_mem hrecs hr hc
    obtain ⟨hparse, _⟩ := mkRecord_ok_fields hmk
    rw [hp] at hparse
    simp only [Except.ok.injEq, Prod.mk.injEq] at hparse
    exact absurd hparse.1 (by simp)

/-- Claim C5, witness: a table whose only date column is `Foo/24` aborts. -/
theorem unknown_month_aborts_witness :
    ∃ e, transform_data fooTable = .error e :=
  unknown_month_aborts (t := fooTable) (c := "Foo/24") (y := 2024)
    (by decide) (by decide) (by decide)

/-- Claim C6: a date column `Mon/YY` with a known month abbreviation and an
unsigned year token parses to a month in 1..12 and the year 2000 + YY
(so at least 2000); every record built from that column carries the ISO
date `YYYY-MM-01` with the month zero-padded to two digits. -/
theorem parse_date_contract {c : String} {ms ys : List Char} {m : Nat} {y : Int}
    (hsplit : splitChars '/' (trimChars c.data) = [ms, ys])
    (hmonth : month_map (String.mk (trimChars ms)) = some m)
    (hyear : pyInt ys = some y) (hy0 : 0 ≤ y) :
    parse_date_column c = .ok (some m, 2000 + y) ∧
      1 ≤ m ∧ m ≤ 12 ∧ (2000 : Int) ≤ 2000 + y ∧
      (pad2Chars m).length = 2 ∧
      ∀ cols row o, mkRecord cols row c = .ok o →
        o.Data = formatDate (2000 + y) m ∧ o.Mes = m ∧ o.Ano = 2000 + y := by
  have hp : parse_date_column c = .ok (some m, 2000 + y) := by
    unfold parse_date_column
    rw [hsplit]
    simp only [hyear, hmonth]
  obtain ⟨h1, h12⟩ := month_map_range hmonth
  have hpad : (pad2Chars m).length = 2 := by
    interval_cases m <;> decide
  refine ⟨hp, h1, h12, by omega, hpad, ?_⟩
  intro cols row o hmk
  obtain ⟨hparse, hdata, _⟩ := mkRecord_ok_fields hmk
  have heq := hp.symm.trans hparse
  simp only [Except.ok.injEq, Prod.mk.injEq, Option.some.injEq] at heq
  obtain ⟨hm, hy⟩ := heq
  exact ⟨by rw [hdata, ← hm, ← hy], hm.symm, hy.symm⟩

/-- Claim C6, witness at `Mar/24`: month 3, year 2024, ISO date
`2024-03-01`, month name `Março`. -/
theorem parse_date_contract_witness :
    parse_date_column "Mar/24" = .ok (some 3, 2024) ∧
      formatDate 2024 3 = "2024-03-01" ∧ month_names 3 = some "Março" := by
  have h := @parse_date_contract "Mar/24" "Mar".data "24".data 3 24
    (by decide) (by decide) (by decide) (by decide)
  refine ⟨?_, by decide, by decide⟩
  have := h.1
  norm_num at this ⊢
  exact this

/-- Claim C7: a table missing identifying columns fails validation with a
`ValueError` whose message lists exactly the missing names, before any
record is produced. -/
theorem missing_columns_rejected {t : Table}
    (h : required_columns.filter (fun c => !(t.cols.contains c)) ≠ []) :
    validate_input_data t.cols = .error (.valueError
        ("Missing required columns: " ++
          pyListRepr (required_columns.filter (fun c => !(t.cols.contains c))))) ∧
      transform_data t = .error (.valueError
        ("Missing required columns: " ++
          pyListRepr (required_columns.filter (fun c => !(t.cols.contains c))))) := by
  have hval : validate_input_data t.cols = .error (.valueError
      ("Missing required columns: " ++
        pyListRepr (required_columns.filter (fun c => !(t.cols.contains c))))) := by
    simp only [validate_input_data]
    rw [if_neg (by simpa [List.isEmpty_iff] using h)]
  exact ⟨hval, by simp only [transform_data, hval]⟩

/-- Claim C7, witness: a table missing only `Categoria` is rejected with a
message naming exactly `Categoria`. -/
theorem missing_columns_rejected_witness :
    transform_data missingCatTable = .error (.valueError
      ("Missing required columns: " ++ pyListRepr ["Categoria"])) := by
  have h := (missing_columns_rejected (t := missingCatTable) (by decide)).2
  rw [show required_columns.filter (fun c => !(missingCatTable.cols.contains c))
      = ["Categoria"] from by decide] at h
  exact h

/-- Claim C8: a table with the identifying columns whose only other column,
if any, is `Total` fails validation with the no-date-columns `ValueError`;
`Total` never counts as a date column. -/
theorem no_date_columns_rejected {t : Table}
    (hreq : ∀ c ∈ required_columns, c ∈ t.cols)
    (hrest : ∀ c ∈ t.cols, c ∈ required_columns ∨ c = "Total") :
    validate_input_data t.cols = .error (.valueError
        ("No date columns found in the format " ++
          String.mk [sq] ++ "MMM/YY" ++ String.mk [sq])) ∧
      transform_data t = .error (.valueError
        ("No date columns found in the format " ++
          String.mk [sq] ++ "MMM/YY" ++ String.mk [sq])) ∧
      ∀ cols2 : List String, "Total" ∉ date_column_names cols2 := by
  have hdate : date_column_names t.cols = [] := by
    unfold date_column_names
    rw [List.filter_eq_nil_iff]
    intro c hcmem
    rcases hrest c hcmem with hin | htot
    · simp only [required_columns, List.mem_cons, List.mem_singleton,
        List.not_mem_nil, or_false] at hin
      rcases hin with rfl | rfl | rfl <;> decide
    · subst htot; decide
  have hmiss : required_columns.filter (fun c => !(t.cols.contains c)) = [] := by
    rw [List.filter_eq_nil_iff]
    intro c hcmem
    simp [hreq c hcmem]
  have hval : validate_input_data t.cols = .error (.valueError
      ("No date columns found in the format " ++
        String.mk [sq] ++ "MMM/YY" ++ String.mk [sq])) := by
    simp only [validate_input_data, hmiss, hdate, List.isEmpty_nil, if_true]
  refine ⟨hval, by simp only [transform_data, hval], ?_⟩
  intro cols2 hmem
  have := List.mem_filter.mp hmem
  simp at this

/-- Claim C8, witness: identifying columns plus a lone `Total` column are
rejected with the no-date-columns message. -/
theorem no_date_columns_rejected_witness :
    transform_data totalOnlyTable = .error (.valueError
      ("No date columns found in the format " ++
        String.mk [sq] ++ "MMM/YY" ++ String.mk [sq])) :=
  (no_date_columns_rejected (t := totalOnlyTable) (by decide) (by decide)).2.1

/-- Claim C9, counterexample: a cell whose text is `inf` parses to a float
infinity, `pd.notnull` holds, and `round(inf, 2)` keeps it infinite, so the
emitted `Valor` is not finite. -/
theorem valor_inf_cex :
    transform_data infTable = .ok [infObs] ∧ infObs.Valor = PyFloat.inf :=
  ⟨transform_infTable, rfl⟩

/-- Claim C9 as amended: `Valor` is never `NaN` (never null) — unparseable
and missing cells become exactly `0.00` and the record is kept — and it is
finite whenever no date cell's text converts to a float infinity (an
explicit infinity word, or a decimal at or beyond the float64 overflow
boundary such as `1e400`). -/
theorem valor_never_nan {t : Table} {out : List Obs}
    (h : transform_data t = .ok out) :
    (∀ o ∈ out, o.Valor ≠ PyFloat.nan) ∧
      ((∀ r ∈ t.rows, ∀ c ∈ date_column_names t.cols,
          to_numeric_coerce ((pyStr (getCell t.cols r c)).data.map commaDot)
              ≠ PyFloat.inf ∧
            to_numeric_coerce ((pyStr (getCell t.cols r c)).data.map commaDot)
              ≠ PyFloat.ninf) →
        ∀ o ∈ out, ∃ q, o.Valor = PyFloat.fin q) := by
  obtain ⟨hval, recs, hrecs, hout⟩ := transform_data_ok h
  subst hout
  constructor
  · intro o ho
    obtain ⟨r, hr, c, hc, hmk⟩ :=
      allRecords_mem_src hrecs ((sort_values_perm recs).mem_iff.mp ho)
    obtain ⟨_, _, _, _, _, _, hValor⟩ := mkRecord_ok_fields hmk
    rw [hValor]
    exact cellValor_ne_nan _
  · intro hfin o ho
    obtain ⟨r, hr, c, hc, hmk⟩ :=
      allRecords_mem_src hrecs ((sort_values_perm recs).mem_iff.mp ho)
    obtain ⟨_, _, _, _, _, _, hValor⟩ := mkRecord_ok_fields hmk
    rw [hValor]
    exact cellValor_fin (hfin r hr c hc).1 (hfin r hr c hc).2

/-- Claim C9, witness: the zero-filled record of the scenario table has a
non-`NaN` value. -/
theorem valor_never_nan_witness : exObsJan.Valor ≠ PyFloat.nan :=
  (valor_never_nan transform_exTable).1 exObsJan (by decide)

/-- Claim C10: validation inspects only the header, so it can pass while the
reshape fails: on a validated table with a missing (`NaN`) `Categoria` cell,
`transform_data` raises `AttributeError` at `.strip()`; and when every
`Categoria` cell is a string, no `AttributeError` is possible. -/
theorem validation_gap :
    (validate_input_data nanCatTable.cols = .ok true ∧
        transform_data nanCatTable
          = .error (.attributeError "float object has no attribute strip")) ∧
      ∀ t : Table, (∀ r ∈ t.rows, getCell t.cols r "Categoria" ≠ Cell.nan) →
        ∀ m, transform_data t ≠ .error (.attributeError m) := by
  refine ⟨⟨nanCat_validates, nanCat_raises⟩, ?_⟩
  intro t hcat m hcon
  rcases transform_data_error hcon with hv | ha
  · obtain ⟨m2, hm2⟩ := validate_error_valueError hv
    exact absurd hm2 (by simp)
  · obtain ⟨r, hr, c, hc, hmk⟩ := allRecords_error_src ha
    exact hcat r hr (mkRecord_attrError hmk)

/-- Claim C10, witness: on the scenario table (all `Categoria` cells are
strings) no `AttributeError` arises. -/
theorem validation_gap_witness :
    transform_data exTable ≠ .error (.attributeError "strip") :=
  validation_gap.2 exTable (by decide) "strip"

end TinyERP
